import Mathlib

/-
  Verification of the aibom2 repository's core logic: the AIBOM document
  builder (services/aibom_generator.py), the defensive risk-interpreter parse
  (services/bedrock_agent.py), and the comparison engine
  (services/comparison_engine.py), shallowly embedded in Lean 4.

  Conventions of the embedding:
  - Python `str` is `String`, `int` is `Int` (sizes, which the repository's
    own fetcher produces as `None` or positive multiples of 500MB, are
    `Option Nat`), `float` is `Rat` (no rounding is modelled; the values the
    code manipulates here are exact small rationals).
  - Python dicts used as ordered key/value maps are association lists with
    insertion-order-preserving, value-overwriting insert (`dictInsert`).
  - Python exceptions that can propagate are `Option` (`none` = raise).
-/

set_option autoImplicit false

namespace Aibom

/- ### Python string primitives -/

/-- The character `{`. -/
def lbrace : Char := Char.ofNat 123

/-- The character `}`. -/
def rbrace : Char := Char.ofNat 125

/-- Helper for `str.find`: index of the first occurrence of `t`, or `-1`. -/
def charFindAux : List Char → Char → Nat → Int
  | [], _, _ => -1
  | c :: cs, t, i => if c == t then (i : Int) else charFindAux cs t (i + 1)

/-- Python `s.find(c)`: first index of `c` in `s`, `-1` when absent. -/
def pyFind (s : String) (c : Char) : Int := charFindAux s.data c 0

/-- Python `s.rfind(c)`: last index of `c` in `s`, `-1` when absent. -/
def pyRfind (s : String) (c : Char) : Int :=
  let r := charFindAux s.data.reverse c 0
  if r < 0 then -1 else (s.data.length : Int) - 1 - r

/-- Normalize a Python slice index: negative indices count from the end,
then the index is clamped to `[0, len]`. -/
def pyNormIdx (len : Nat) (i : Int) : Nat :=
  let j := if i < 0 then i + len else i
  if j < 0 then 0 else if j > (len : Int) then len else j.toNat

/-- Python `s[a:b]` for `Int` indices. -/
def pySlice (s : String) (a b : Int) : String :=
  let n := s.data.length
  ⟨(s.data.take (pyNormIdx n b)).drop (pyNormIdx n a)⟩

/-- Does `cs` start with the pattern `p` (character-wise)? -/
def leadMatch : List Char → List Char → Bool
  | [], _ => true
  | _ :: _, [] => false
  | p :: ps, c :: cs => p == c && leadMatch ps cs

/-- Does `cs` contain the pattern `pat` as a contiguous run? -/
def subMatch (pat : List Char) : List Char → Bool
  | [] => leadMatch pat []
  | c :: cs => leadMatch pat (c :: cs) || subMatch pat cs

/-- Python `pat in s` for strings. -/
def strContainsSub (s pat : String) : Bool := subMatch pat.data s.data

/-- Python `s.endswith(suf)`. -/
def pyEndsWith (s suf : String) : Bool := leadMatch suf.data.reverse s.data.reverse

/-- Python `s.lower()` (ASCII, which covers every string the code builds). -/
def pyLower (s : String) : String := ⟨s.data.map Char.toLower⟩

/-- Python truthiness of an optional string: `None` and `""` are falsy. -/
def isTruthyStr : Option String → Bool
  | none => false
  | some s => !(s == "")

/- ### Python dict as an ordered association list -/

/-- Python dict assignment `d[k] = v`: updates the value in place when the
key exists (keeping its position), otherwise appends at the end. -/
def dictInsert {α : Type} (k : String) (v : α) : List (String × α) → List (String × α)
  | [] => [(k, v)]
  | kv :: rest => if kv.fst == k then (k, v) :: rest else kv :: dictInsert k v rest

/-- Python `defaultdict(int)` increment `d[k] += 1`. -/
def bumpCount (k : String) : List (String × Nat) → List (String × Nat)
  | [] => [(k, 1)]
  | kv :: rest => if kv.fst == k then (k, kv.snd + 1) :: rest else kv :: bumpCount k rest

/- ### JSON values, as produced by Python json.loads -/

/-- A parsed JSON value. Numbers are exact rationals (Python would hold ints
and IEEE floats; none of the verified paths do arithmetic that rounds).
Objects are association lists with distinct keys: duplicate keys in the
source text overwrite, as in Python dicts. -/
inductive Json where
  | null
  | bool (b : Bool)
  | num (q : Rat)
  | str (s : String)
  | arr (elems : List Json)
  | obj (fields : List (String × Json))

/-- Python `data.get(k, d)` on a parsed JSON object. -/
def objGet (kvs : List (String × Json)) (k : String) (d : Json) : Json :=
  match kvs.find? (fun kv => kv.fst == k) with
  | some kv => kv.snd
  | none => d

/- ### JSON parser (the semantics of json.loads on the sliced reply) -/

/-- JSON whitespace accepted between tokens. -/
def isJsonWs (c : Char) : Bool := c == ' ' || c == '\t' || c == '\n' || c == '\r'

/-- Drop leading JSON whitespace. -/
def skipWs : List Char → List Char
  | [] => []
  | c :: cs => if isJsonWs c then skipWs cs else c :: cs

/-- Is `c` an ASCII digit? -/
def isDigitChar (c : Char) : Bool := '0' ≤ c && c ≤ '9'

/-- Value of an ASCII digit. -/
def digitVal (c : Char) : Nat := c.toNat - 48

/-- Split a maximal run of leading digits from the rest. -/
def takeDigits : List Char → List Char × List Char
  | [] => ([], [])
  | c :: cs =>
    if isDigitChar c then
      let p := takeDigits cs
      (c :: p.fst, p.snd)
    else ([], c :: cs)

/-- Numeric value of a digit run. -/
def digitsToNat (ds : List Char) : Nat := ds.foldl (fun n c => 10 * n + digitVal c) 0

/-- Hex digit value, for string escapes. -/
def hexVal (c : Char) : Option Nat :=
  if isDigitChar c then some (digitVal c)
  else if 'a' ≤ c && c ≤ 'f' then some (c.toNat - 87)
  else if 'A' ≤ c && c ≤ 'F' then some (c.toNat - 55)
  else none

/-- Optional fraction part `.digits` of a JSON number (a bare dot is an
error, as in json.loads). Returns the fractional value. -/
def parseFrac : List Char → Option (Rat × List Char)
  | [] => some (0, [])
  | c :: r =>
    if c == '.' then
      match takeDigits r with
      | ([], _) => none
      | (ds, r2) => some ((digitsToNat ds : Rat) / ((10 : Rat) ^ ds.length), r2)
    else some (0, c :: r)

/-- Optional exponent part `e[+-]digits` of a JSON number. -/
def parseExp : List Char → Option (Int × List Char)
  | [] => some (0, [])
  | c :: r =>
    if c == 'e' || c == 'E' then
      let sr : Int × List Char :=
        match r with
        | '+' :: r2 => (1, r2)
        | '-' :: r2 => (-1, r2)
        | _ => (1, r)
      match takeDigits sr.snd with
      | ([], _) => none
      | (ds, r2) => some (sr.fst * (digitsToNat ds : Int), r2)
    else some (0, c :: r)

/-- Scale a rational by a power of ten (the exponent of a JSON number). -/
def applyExp (q : Rat) (e : Int) : Rat :=
  if 0 ≤ e then q * (10 : Rat) ^ e.toNat else q / (10 : Rat) ^ (-e).toNat

/-- Parse a JSON number: `-? (0 | [1-9][0-9]*) frac? exp?`. -/
def parseNumber (cs : List Char) : Option (Rat × List Char) :=
  let sr : Bool × List Char :=
    match cs with
    | '-' :: r => (true, r)
    | _ => (false, cs)
  match sr.snd with
  | [] => none
  | c :: r =>
    let ipart : Option (Nat × List Char) :=
      if c == '0' then some (0, r)
      else if isDigitChar c then
        let p := takeDigits r
        some (digitsToNat (c :: p.fst), p.snd)
      else none
    match ipart with
    | none => none
    | some (ip, cs2) =>
      match parseFrac cs2 with
      | none => none
      | some (f, cs3) =>
        match parseExp cs3 with
        | none => none
        | some (e, cs4) =>
          let mag := applyExp ((ip : Rat) + f) e
          some (if sr.fst then -mag else mag, cs4)

/-- Parse the body of a JSON string (after the opening quote), handling the
standard escapes. Raw control characters are rejected (strict mode).
A `\u` escape becomes the code point directly; surrogate-pair joining is
not modelled (no verified path contains such an escape). -/
def parseStrChars : Nat → List Char → Option (List Char × List Char)
  | 0, _ => none
  | _, [] => none
  | fuel + 1, c :: r =>
    if c == '"' then some ([], r)
    else if c == '\\' then
      match r with
      | [] => none
      | e :: r2 =>
        let cont : Char → List Char → Option (List Char × List Char) := fun ch rest =>
          match parseStrChars fuel rest with
          | some (cs, rest2) => some (ch :: cs, rest2)
          | none => none
        if e == '"' then cont '"' r2
        else if e == '\\' then cont '\\' r2
        else if e == '/' then cont '/' r2
        else if e == 'b' then cont (Char.ofNat 8) r2
        else if e == 'f' then cont (Char.ofNat 12) r2
        else if e == 'n' then cont '\n' r2
        else if e == 'r' then cont '\r' r2
        else if e == 't' then cont '\t' r2
        else if e == 'u' then
          match r2 with
          | h1 :: h2 :: h3 :: h4 :: r3 =>
            match hexVal h1, hexVal h2, hexVal h3, hexVal h4 with
            | some a, some b, some c2, some d =>
              cont (Char.ofNat (4096 * a + 256 * b + 16 * c2 + d)) r3
            | _, _, _, _ => none
          | _ => none
        else none
    else if c.toNat < 32 then none
    else
      match parseStrChars fuel r with
      | some (cs, rest2) => some (c :: cs, rest2)
      | none => none

mutual

/-- Parse one JSON value, with leading whitespace. -/
def parseValue : Nat → List Char → Option (Json × List Char)
  | 0, _ => none
  | fuel + 1, cs =>
    match skipWs cs with
    | [] => none
    | c :: r =>
      if c == lbrace then
        match skipWs r with
        | [] => none
        | c2 :: r2 =>
          if c2 == rbrace then some (.obj [], r2)
          else parseMembers fuel [] (c2 :: r2)
      else if c == '[' then
        match skipWs r with
        | [] => none
        | c2 :: r2 =>
          if c2 == ']' then some (.arr [], r2)
          else parseElems fuel [] (c2 :: r2)
      else if c == '"' then
        match parseStrChars fuel r with
        | some (content, rest) => some (.str ⟨content⟩, rest)
        | none => none
      else if leadMatch "true".data (c :: r) then some (.bool true, (c :: r).drop 4)
      else if leadMatch "false".data (c :: r) then some (.bool false, (c :: r).drop 5)
      else if leadMatch "null".data (c :: r) then some (.null, (c :: r).drop 4)
      else
        match parseNumber (c :: r) with
        | some (q, rest) => some (.num q, rest)
        | none => none

/-- Parse the members of a JSON object (positioned at a key); duplicate keys
overwrite as in a Python dict. -/
def parseMembers : Nat → List (String × Json) → List Char → Option (Json × List Char)
  | 0, _, _ => none
  | fuel + 1, acc, cs =>
    match cs with
    | [] => none
    | c :: r =>
      if c == '"' then
        match parseStrChars fuel r with
        | none => none
        | some (key, cs2) =>
          match skipWs cs2 with
          | ':' :: cs3 =>
            match parseValue fuel cs3 with
            | none => none
            | some (v, cs4) =>
              let acc2 := dictInsert ⟨key⟩ v acc
              match skipWs cs4 with
              | c2 :: r2 =>
                if c2 == ',' then parseMembers fuel acc2 (skipWs r2)
                else if c2 == rbrace then some (.obj acc2, r2)
                else none
              | [] => none
          | _ => none
      else none

/-- Parse the elements of a JSON array (positioned at a value). -/
def parseElems : Nat → List Json → List Char → Option (Json × List Char)
  | 0, _, _ => none
  | fuel + 1, acc, cs =>
    match parseValue fuel cs with
    | none => none
    | some (v, cs2) =>
      match skipWs cs2 with
      | c :: r =>
        if c == ',' then parseElems fuel (acc ++ [v]) r
        else if c == ']' then some (.arr (acc ++ [v]), r)
        else none
      | [] => none

end

/-- Python `json.loads`: one JSON value, optionally surrounded by
whitespace; anything else raises (= `none`). -/
def jsonLoads (s : String) : Option Json :=
  match parseValue (4 * s.length + 8) s.data with
  | some (v, rest) => if skipWs rest = [] then some v else none
  | none => none

/- ### Data model (models/analysis_result.py) -/

/-- One entry of `ModelInfo.files` (the fetcher produces
`{"name": f, "size": None}` records). -/
structure FileInfo where
  name : String
  size : Option Nat
deriving DecidableEq

/-- `ModelInfo` from models/analysis_result.py. `model_size` is
`Option Nat`: the repository's fetcher (`_estimate_model_size`) returns
`None` or a positive byte count. -/
structure ModelInfo where
  name : String
  author : String
  description : Option String
  tags : List String
  pipeline_tag : Option String
  library_name : Option String
  license : Option String
  downloads : Int
  likes : Int
  created_at : String
  last_modified : String
  model_size : Option Nat
  config : List (String × Json)
  files : List FileInfo

/-- One AIBOM component dict as built by `_simulate_owasp_generator`.
`name` stands for `comp.get('name', '')` (missing names read as `""`);
`licenses` flattens the `[{"license": {"name": ...}}]` nesting and is empty
when the key is absent. The basic fallback AIBOM stores its supplier as
`{"name": author}`; only the name string is modelled. -/
structure Component where
  type : String
  name : String
  version : String
  description : String
  supplier : String
  licenses : List (Option String)
deriving DecidableEq

/-- One vulnerability dict as built by `_simulate_owasp_generator`:
`source` is `source.name`, `severity`/`method` come from the single
`ratings` entry, `affects` lists the `ref` strings. -/
structure Vulnerability where
  id : String
  source : String
  severity : String
  method : String
  description : String
  affects : List String
deriving DecidableEq

/-- A tool entry of the AIBOM metadata block. -/
structure ToolInfo where
  vendor : String
  name : String
  version : String
deriving DecidableEq

/-- The subject component of the AIBOM metadata block. The basic fallback
AIBOM omits `description` and `supplier` (here `none`). -/
structure SubjectComponent where
  type : String
  name : String
  version : String
  description : Option String
  supplier : Option String
deriving DecidableEq

/-- The AIBOM metadata block. -/
structure AibomMetadata where
  timestamp : String
  tools : List ToolInfo
  component : SubjectComponent
deriving DecidableEq

/-- `AIBOM` from models/analysis_result.py. -/
structure AIBOM where
  bom_format : String
  spec_version : String
  serial_number : String
  version : Nat
  metadata : AibomMetadata
  components : List Component
  dependencies : List Component
  vulnerabilities : List Vulnerability
  compositions : List Json

/-- `SecurityAnalysis` from models/analysis_result.py. The parse in
bedrock_agent.py stores whatever JSON values the reply supplies without
validation, so every field except `risk_score` (always passed through
`float()`) is an arbitrary `Json` value. -/
structure SecurityAnalysis where
  risk_score : Rat
  risk_level : Json
  vulnerabilities : Json
  compliance_issues : Json
  recommendations : Json
  unsafe_formats : Json
  suspicious_files : Json
  license_issues : Json

/-- `AnalysisResult` from models/analysis_result.py. -/
structure AnalysisResult where
  model_name : String
  model_info : ModelInfo
  aibom : AIBOM
  security_analysis : SecurityAnalysis
  timestamp : Rat
  report_path : Option String

/- ### Risk interpreter (services/bedrock_agent.py) -/

/-- Python `float(x)` on a JSON value: numbers pass through, booleans map
to 0/1, numeric strings are converted, and everything else raises
(= `none`). String conversion accepts Python float literals; the `inf`,
`nan` and digit-underscore forms are unrepresentable here and modelled as
failure (no verified path contains them). -/
def pyFloatOfString (s : String) : Option Rat :=
  let cs := (skipWs s.data.reverse).reverse
  let cs := skipWs cs
  let sr : Bool × List Char :=
    match cs with
    | '+' :: r => (false, r)
    | '-' :: r => (true, r)
    | _ => (false, cs)
  let p1 := takeDigits sr.snd
  let p2 : Option (List Char) × List Char :=
    match p1.snd with
    | '.' :: r =>
      let q := takeDigits r
      (some q.fst, q.snd)
    | _ => (none, p1.snd)
  if p1.fst = [] && p2.fst.getD [] = [] then none
  else
    match parseExp p2.snd with
    | none => none
    | some (e, rest) =>
      if rest = [] then
        let fds := p2.fst.getD []
        let mag := applyExp ((digitsToNat p1.fst : Rat) +
          (digitsToNat fds : Rat) / ((10 : Rat) ^ fds.length)) e
        some (if sr.fst then -mag else mag)
      else none

/-- Python `float(x)` for a JSON value. -/
def pyFloat : Json → Option Rat
  | .num q => some q
  | .bool b => some (if b then 1 else 0)
  | .str s => pyFloatOfString s
  | _ => none

/-- `_create_default_security_analysis`: the fixed record returned whenever
obtaining or parsing the reply fails. -/
def createDefaultSecurityAnalysis : SecurityAnalysis :=
  { risk_score := 5
    risk_level := .str "MEDIUM"
    vulnerabilities := .arr []
    compliance_issues := .arr []
    recommendations := .arr [.str "Manual security review recommended"]
    unsafe_formats := .arr []
    suspicious_files := .arr []
    license_issues := .arr [] }

/-- The slice `response[response.find('{') : response.rfind('}') + 1]`
taken by `_parse_security_analysis`. -/
def extractJsonSlice (response : String) : String :=
  pySlice response (pyFind response lbrace) (pyRfind response rbrace + 1)

/-- `_parse_security_analysis`: slice out the candidate JSON object, parse
it, and read the expected keys with defaults. Any exception on the way
(no parseable JSON, a non-object value, `float()` failing on `risk_score`)
degrades to the fixed default record. -/
def parseSecurityAnalysis (response : String) : SecurityAnalysis :=
  match jsonLoads (extractJsonSlice response) with
  | some (.obj kvs) =>
    match pyFloat (objGet kvs "risk_score" (.num 5)) with
    | some score =>
      { risk_score := score
        risk_level := objGet kvs "risk_level" (.str "MEDIUM")
        vulnerabilities := objGet kvs "vulnerabilities" (.arr [])
        compliance_issues := objGet kvs "compliance_issues" (.arr [])
        recommendations := objGet kvs "recommendations" (.arr [])
        unsafe_formats := objGet kvs "unsafe_formats" (.arr [])
        suspicious_files := objGet kvs "suspicious_files" (.arr [])
        license_issues := objGet kvs "license_issues" (.arr []) }
    | none => createDefaultSecurityAnalysis
  | _ => createDefaultSecurityAnalysis

/-- The keys `_parse_security_analysis` reads from the extracted object. -/
def expectedKeys : List String :=
  ["risk_score", "risk_level", "vulnerabilities", "compliance_issues",
   "recommendations", "unsafe_formats", "suspicious_files", "license_issues"]

/- ### Document builder (services/aibom_generator.py) -/

/-- The component classification loop of `_simulate_owasp_generator`
(suffix dispatch `.bin`/`.safetensors` then `.json` then `.py`; other
suffixes yield no component). -/
def fileComponents (author : String) (license : Option String)
    (files : List FileInfo) : List Component :=
  files.filterMap (fun f =>
    if pyEndsWith f.name ".bin" || pyEndsWith f.name ".safetensors" then
      some { type := "model-weights", name := f.name, version := "unknown",
             description := "Model weights file: " ++ f.name,
             supplier := author, licenses := [license] }
    else if pyEndsWith f.name ".json" then
      some { type := "configuration", name := f.name, version := "unknown",
             description := "Configuration file: " ++ f.name,
             supplier := author, licenses := [] }
    else if pyEndsWith f.name ".py" then
      some { type := "source-code", name := f.name, version := "unknown",
             description := "Python source file: " ++ f.name,
             supplier := author, licenses := [] }
    else none)

/-- The HIGH-severity pickle finding for one file (id assigned later). -/
def mkPickleVuln (fileName : String) : Vulnerability :=
  { id := "", source := "AIBOM Security Analysis", severity := "high",
    method := "other",
    description := "Potentially unsafe pickle file detected: " ++ fileName,
    affects := [fileName] }

/-- The pickle check for one file, mirroring the suffix-dispatch chain of
the component loop: only the `.py` branch tests for "pickle". -/
def pickleYield (f : FileInfo) : Option Vulnerability :=
  if pyEndsWith f.name ".bin" || pyEndsWith f.name ".safetensors" then none
  else if pyEndsWith f.name ".json" then none
  else if pyEndsWith f.name ".py" then
    if strContainsSub (pyLower f.name) "pickle" then some (mkPickleVuln f.name)
    else none
  else none

/-- The pickle check inside the `.py` branch of the same loop: a
HIGH-severity finding for every source file whose lowercased name contains
"pickle". Ids are assigned afterwards by `assignIds`. -/
def pickleVulnerabilities (files : List FileInfo) : List Vulnerability :=
  files.filterMap pickleYield

/-- The MEDIUM-severity missing-license finding (id assigned later). -/
def mkLicenseVuln (modelName : String) : Vulnerability :=
  { id := "", source := "AIBOM License Analysis", severity := "medium",
    method := "other",
    description := "Model license is not specified or unknown",
    affects := [modelName] }

/-- The license check of `_simulate_owasp_generator`: one MEDIUM-severity
finding when the license is `None` or the literal "unknown". -/
def licenseVulnerability (modelName : String) (license : Option String) :
    List Vulnerability :=
  if license == none || license == some "unknown" then [mkLicenseVuln modelName]
  else []

/-- Fill in the `AIBOM-<uuid4.hex[:8]>` ids. The stream `uuids` stands for
the successive `uuid.uuid4().hex` draws, one per vulnerability in emission
order. -/
def assignIds (uuids : Nat → String) (vs : List Vulnerability) : List Vulnerability :=
  vs.enum.map (fun p => { p.snd with id := "AIBOM-" ++ (uuids p.fst).take 8 })

/-- The framework-dependency step: one entry when `library_name` is truthy. -/
def frameworkDependencies (library_name : Option String) : List Component :=
  if isTruthyStr library_name then
    [{ type := "framework", name := library_name.getD "", version := "unknown",
       description := "ML framework dependency: " ++ library_name.getD "",
       supplier := "community", licenses := [] }]
  else []

/-- `_simulate_owasp_generator` followed by `_convert_to_aibom` (the normal
path of `generate_aibom`; `_create_model_manifest` is inlined since the
manifest's "model" object carries the `ModelInfo` fields verbatim).
`uuids` and `serial` stand for the `uuid.uuid4()` draws. -/
def simulateOwaspGenerator (uuids : Nat → String) (serial : String)
    (m : ModelInfo) : AIBOM :=
  { bom_format := "CycloneDX"
    spec_version := "1.5"
    serial_number := "urn:uuid:" ++ serial
    version := 1
    metadata :=
      { timestamp := "2024-01-01T00:00:00Z"
        tools := [{ vendor := "OWASP", name := "AIBOM Generator", version := "1.0.0" }]
        component :=
          { type := "machine-learning-model", name := m.name, version := "latest",
            description := m.description, supplier := some m.author } }
    components := fileComponents m.author m.license m.files
    dependencies := frameworkDependencies m.library_name
    vulnerabilities :=
      assignIds uuids (pickleVulnerabilities m.files ++ licenseVulnerability m.name m.license)
    compositions := [] }

/-- `_create_basic_aibom`: the fallback AIBOM returned when generation
raises; a single subject component, empty lists. -/
def createBasicAibom (serial : String) (m : ModelInfo) : AIBOM :=
  { bom_format := "CycloneDX"
    spec_version := "1.5"
    serial_number := "urn:uuid:" ++ serial
    version := 1
    metadata :=
      { timestamp := "2024-01-01T00:00:00Z"
        tools := []
        component :=
          { type := "machine-learning-model", name := m.name, version := "latest",
            description := none, supplier := none } }
    components :=
      [{ type := "machine-learning-model", name := m.name, version := "latest",
         description := m.description.getD "", supplier := m.author, licenses := [] }]
    dependencies := []
    vulnerabilities := []
    compositions := [] }

/- ### Comparison engine (services/comparison_engine.py) -/

/-- Python `len(x)` on a JSON value: sequences and mappings have a length,
anything else raises (= `none`). Used because `_compare_security` calls
`len()` on `security_analysis` fields that the parse does not validate. -/
def pyLen : Json → Option Nat
  | .arr l => some l.length
  | .str s => some s.length
  | .obj kvs => some kvs.length
  | _ => none

/-- Python `max(x, *xs, key=key)`: the first element attaining the maximal
key (later elements replace only on a strictly greater key). -/
def pyMaxBy {α κ : Type} [LinearOrder κ] (key : α → κ) : α → List α → α
  | best, [] => best
  | best, x :: xs => if key best < key x then pyMaxBy key x xs else pyMaxBy key best xs

/-- Python `min(x, *xs, key=key)`: the first element attaining the minimal
key. -/
def pyMinBy {α κ : Type} [LinearOrder κ] (key : α → κ) : α → List α → α
  | best, [] => best
  | best, x :: xs => if key x < key best then pyMinBy key x xs else pyMinBy key best xs

/-- `_extract_all_components`: dict from model name to component list
(a later result with the same model name overwrites an earlier one). -/
def extractAllComponents (results : List AnalysisResult) : List (String × List Component) :=
  results.foldl (fun acc r => dictInsert r.model_name r.aibom.components acc) []

/-- The component-name set of one model; Python builds a `set`, used only
for membership tests, so a list with `contains` has the same semantics. -/
def componentNames (comps : List Component) : List String := comps.map (fun c => c.name)

/-- `_find_common_components`: names of the first model (deduplicated by
the dict comprehension, which keeps first-occurrence order and
last-occurrence data) that occur in every other model's name set, each
paired with the full model-name list (`found_in_models`). -/
def findCommonComponents (allComponents : List (String × List Component)) :
    List (Component × List String) :=
  match allComponents with
  | [] => []
  | first :: rest =>
    let modelNames := first.fst :: rest.map (fun mc => mc.fst)
    let firstModel := first.snd.foldl (fun d c => dictInsert c.name c d) []
    firstModel.filterMap (fun nc =>
      if rest.all (fun other => (componentNames other.snd).contains nc.fst) then
        some (nc.snd, modelNames)
      else none)

/-- `_find_unique_components`: per model, the components whose name occurs
in no other model's name set (duplicates within one model are kept). -/
def findUniqueComponents (allComponents : List (String × List Component)) :
    List (String × List Component) :=
  let modelCompNames := allComponents.map (fun mc => (mc.fst, componentNames mc.snd))
  allComponents.map (fun mc =>
    (mc.fst, mc.snd.filter (fun c =>
      modelCompNames.all (fun other =>
        !(other.fst != mc.fst && other.snd.contains c.name)))))

/-- The security-comparison block. `common_vulnerabilities` and
`unique_vulnerabilities` are initialized and never filled. -/
structure SecurityComparison where
  risk_scores : List (String × Rat)
  risk_levels : List (String × Json)
  vulnerability_counts : List (String × Nat)
  compliance_issue_counts : List (String × Nat)
  highest_risk_model : String
  lowest_risk_model : String
  common_vulnerabilities : List Json
  unique_vulnerabilities : List (String × Json)

/-- The per-model dicts `_compare_security` accumulates. -/
structure SecurityRows where
  risk_scores : List (String × Rat)
  risk_levels : List (String × Json)
  vulnerability_counts : List (String × Nat)
  compliance_issue_counts : List (String × Nat)

/-- One iteration of the `_compare_security` loop; `len()` on a non-sized
field raises. -/
def addSecurityRow (acc : SecurityRows) (r : AnalysisResult) : Option SecurityRows :=
  match pyLen r.security_analysis.vulnerabilities,
        pyLen r.security_analysis.compliance_issues with
  | some vc, some cc =>
    some { risk_scores := dictInsert r.model_name r.security_analysis.risk_score acc.risk_scores
           risk_levels := dictInsert r.model_name r.security_analysis.risk_level acc.risk_levels
           vulnerability_counts := dictInsert r.model_name vc acc.vulnerability_counts
           compliance_issue_counts := dictInsert r.model_name cc acc.compliance_issue_counts }
  | _, _ => none

/-- `_compare_security`: per-model scores/levels/counts; highest and lowest
risk model by score over the dict, first key winning ties; empty strings
when there are no results. -/
def compareSecurity (results : List AnalysisResult) : Option SecurityComparison :=
  match results.foldlM addSecurityRow ⟨[], [], [], []⟩ with
  | none => none
  | some rows =>
    let hiLo : String × String :=
      match rows.risk_scores with
      | [] => ("", "")
      | x :: xs =>
        ((pyMaxBy Prod.snd x xs).fst, (pyMinBy Prod.snd x xs).fst)
    some { risk_scores := rows.risk_scores
           risk_levels := rows.risk_levels
           vulnerability_counts := rows.vulnerability_counts
           compliance_issue_counts := rows.compliance_issue_counts
           highest_risk_model := hiLo.fst
           lowest_risk_model := hiLo.snd
           common_vulnerabilities := []
           unique_vulnerabilities := [] }

/-- The license-comparison block; `license_conflicts` is never filled. -/
structure LicenseComparison where
  licenses_by_model : List (String × Option String)
  common_licenses : List String
  license_conflicts : List String
  unlicensed_models : List String

/-- `_compare_licenses`: per-model license, names of models whose license
is falsy, and the licenses counted in more than one result (counts in
first-occurrence order). -/
def compareLicenses (results : List AnalysisResult) : LicenseComparison :=
  let licenseCounts := results.foldl (fun acc r =>
    if isTruthyStr r.model_info.license then
      bumpCount (r.model_info.license.getD "") acc
    else acc) []
  { licenses_by_model :=
      results.foldl (fun acc r => dictInsert r.model_name r.model_info.license acc) []
    common_licenses := licenseCounts.filterMap (fun p => if p.snd > 1 then some p.fst else none)
    license_conflicts := []
    unlicensed_models :=
      (results.filter (fun r => !isTruthyStr r.model_info.license)).map (fun r => r.model_name) }

/-- The size-comparison block; `size_distribution` is never filled. -/
structure SizeComparison where
  sizes_by_model : List (String × Option Nat)
  largest_model : String
  smallest_model : String
  average_size : Rat
  size_distribution : List (String × Json)

/-- Python truthiness of a size: `None` and `0` are falsy. -/
def truthySize : Option Nat → Bool
  | none => false
  | some n => !(n == 0)

/-- The key `sizes[k] or 0` of the `largest_model` selection. -/
def largestKey : Option Nat → Nat
  | none => 0
  | some n => if n == 0 then 0 else n

/-- The key `sizes[k] or float('inf')` of the `smallest_model` selection. -/
def smallestKey : Option Nat → WithTop Nat
  | none => ⊤
  | some n => if n == 0 then ⊤ else (n : WithTop Nat)

/-- The `valid_sizes` list: truthy sizes in result order (duplicated model
names contribute one entry each here, unlike in the `sizes` dict). -/
def sizeValues (results : List AnalysisResult) : List Rat :=
  results.filterMap (fun r =>
    if truthySize r.model_info.model_size then
      some ((r.model_info.model_size.getD 0 : Nat) : Rat)
    else none)

/-- `_compare_sizes`: per-model size, largest/smallest model with missing
sizes keyed to the extremes, and the average of the truthy sizes (division
is exact here; the Python float division rounds, but no verified value
does). Empty strings and average 0 when no truthy size exists. -/
def compareSizes (results : List AnalysisResult) : SizeComparison :=
  let sizes := results.foldl (fun acc r => dictInsert r.model_name r.model_info.model_size acc) []
  match sizeValues results with
  | [] =>
    { sizes_by_model := sizes, largest_model := "", smallest_model := "",
      average_size := 0, size_distribution := [] }
  | v :: vs =>
    let hiLo : String × String :=
      match sizes with
      | [] => ("", "")
      | x :: xs =>
        ((pyMaxBy (fun p => largestKey p.snd) x xs).fst,
         (pyMinBy (fun p => smallestKey p.snd) x xs).fst)
    { sizes_by_model := sizes
      largest_model := hiLo.fst
      smallest_model := hiLo.snd
      average_size := (v :: vs).sum / ((v :: vs).length : Rat)
      size_distribution := [] }

/-- The dependency-analysis block; `unique_dependencies` is never filled. -/
structure DependencyAnalysis where
  dependencies_by_model : List (String × List Component)
  common_dependencies : List String
  unique_dependencies : List (String × Json)
  dependency_conflicts : List Json

/-- `_analyze_dependencies`: per-model dependency list and the iterated
intersection of dependency-name sets. Python materializes the intersection
as a `set` whose iteration order is unspecified; it is modelled in
first-model key order. -/
def analyzeDependencies (results : List AnalysisResult) : DependencyAnalysis :=
  let allDeps := results.foldl (fun acc r =>
    dictInsert r.model_name
      (r.aibom.dependencies.foldl (fun d dep => dictInsert dep.name dep d) []) acc) []
  { dependencies_by_model :=
      results.foldl (fun acc r => dictInsert r.model_name r.aibom.dependencies acc) []
    common_dependencies :=
      match allDeps with
      | [] => []
      | first :: rest =>
        (first.snd.map (fun p => p.fst)).filter (fun n =>
          rest.all (fun other => (other.snd.map (fun p => p.fst)).contains n))
    unique_dependencies := []
    dependency_conflicts := [] }

/-- `ModelComparison` from models/analysis_result.py. -/
structure ModelComparison where
  common_components : List (Component × List String)
  unique_components : List (String × List Component)
  security_comparison : SecurityComparison
  license_comparison : LicenseComparison
  size_comparison : SizeComparison
  dependency_analysis : DependencyAnalysis

/-- `ComparisonEngine.compare_models`: assembles the comparison; the
surrounding try/except re-raises, so an exception in a sub-step (only
possible in `_compare_security`'s `len()` calls) propagates (= `none`). -/
def compareModels (results : List AnalysisResult) : Option ModelComparison :=
  match compareSecurity results with
  | none => none
  | some security =>
    let allComponents := extractAllComponents results
    some { common_components := findCommonComponents allComponents
           unique_components := findUniqueComponents allComponents
           security_comparison := security
           license_comparison := compareLicenses results
           size_comparison := compareSizes results
           dependency_analysis := analyzeDependencies results }

/- ### Claim-statement helpers and concrete fixtures -/

/-- A file descriptor triggers the pickle finding iff its name ends in
`.py` and its lowercased name contains "pickle". -/
def isPickleSourceFile (name : String) : Bool :=
  pyEndsWith name ".py" && strContainsSub (pyLower name) "pickle"

/-- Is `v` a HIGH-severity entry whose affected references include `n`? -/
def pHigh (n : String) (v : Vulnerability) : Bool :=
  v.severity == "high" && v.affects.contains n

/-- Is `v` the MEDIUM-severity license-analysis entry? -/
def pMedium (v : Vulnerability) : Bool :=
  v.severity == "medium" && v.source == "AIBOM License Analysis"

/-- Number of HIGH-severity vulnerability entries of `a` whose affected
references include `n`. -/
def highVulnCountFor (a : AIBOM) (n : String) : Nat :=
  (a.vulnerabilities.filter (pHigh n)).length

/-- Number of MEDIUM-severity license-analysis vulnerability entries of `a`. -/
def licenseVulnCount (a : AIBOM) : Nat :=
  (a.vulnerabilities.filter pMedium).length

/-- Whether an optional yield is produced and satisfies `p`. -/
def optHit {β : Type} (p : β → Bool) : Option β → Bool
  | some v => p v
  | none => false

/-- Turn a present-but-zero size estimate into an absent one, leaving
everything else unchanged. -/
def clearZeroSize (r : AnalysisResult) : AnalysisResult :=
  if r.model_info.model_size = some 0 then
    { r with model_info := { r.model_info with model_size := none } }
  else r

/-- The reasoning-service reply used to exhibit the missing validation. -/
def c3FailingReply : String :=
  "\x7b\"risk_score\": 99, \"risk_level\": \"INVALID\"\x7d"

/-- Fixture: a `ModelInfo`. -/
def mkModelInfo (name : String) (size : Option Nat) (license : Option String)
    (files : List FileInfo) : ModelInfo where
  name := name
  author := "author"
  description := none
  tags := []
  pipeline_tag := none
  library_name := none
  license := license
  downloads := 0
  likes := 0
  created_at := ""
  last_modified := ""
  model_size := size
  config := []
  files := files

/-- Fixture: a metadata record with an empty file list. -/
def emptyFilesModel : ModelInfo := mkModelInfo "empty-model" none (some "mit") []

/-- Fixture: a metadata record listing the same pickle-loading source file
twice (the builder performs no deduplication of file names). -/
def dupPickleModel : ModelInfo :=
  mkModelInfo "dup-model" none (some "mit")
    [⟨"load_pickle.py", none⟩, ⟨"load_pickle.py", none⟩]

/-- Fixture: a component. -/
def mkComponent (n d : String) : Component :=
  { type := "configuration", name := n, version := "unknown", description := d,
    supplier := "author", licenses := [] }

/-- Fixture: an `AnalysisResult` with the given name, size estimate,
license and components. -/
def mkResult (name : String) (size : Option Nat) (license : Option String)
    (comps : List Component) : AnalysisResult where
  model_name := name
  model_info := mkModelInfo name size license []
  aibom :=
    { bom_format := "CycloneDX"
      spec_version := "1.5"
      serial_number := "urn:uuid:s"
      version := 1
      metadata :=
        { timestamp := "2024-01-01T00:00:00Z"
          tools := []
          component :=
            { type := "machine-learning-model", name := name, version := "latest",
              description := none, supplier := none } }
      components := comps
      dependencies := []
      vulnerabilities := []
      compositions := [] }
  security_analysis := createDefaultSecurityAnalysis
  timestamp := 0
  report_path := none

/- ### Shared lemmas -/

/-- Membership in a one-element list, as a Bool equation. -/
theorem contains_singleton (m n : String) : ([m].contains n) = (m == n) := by
  rw [Bool.eq_iff_iff]
  constructor
  · intro h
    simp at h
    exact beq_iff_eq.mpr h.symm
  · intro h
    simp
    exact (beq_iff_eq.mp h).symm

/-- Reading an absent key yields the supplied default. -/
theorem objGet_eq_default (kvs : List (String × Json)) (k : String) (d : Json)
    (h : kvs.find? (fun kv => kv.fst == k) = none) : objGet kvs k d = d := by
  rw [objGet, h]

/- ### Claim C1: defaults of the risk-assessment parse -/

/-- Claim C1, counterexample. The claim states that a reply whose extracted
JSON object is missing all expected keys yields a record whose
recommendations list has exactly one entry. The reply `"{}"` extracts to
the JSON object with no keys, yet the parse returns an empty
recommendations list. -/
theorem c1_counterexample :
    jsonLoads (extractJsonSlice "\x7b\x7d") = some (Json.obj []) ∧
    (parseSecurityAnalysis "\x7b\x7d").recommendations = Json.arr [] ∧
    Json.arr [] ≠ Json.arr [Json.str "Manual security review recommended"] := by
  refine ⟨rfl, rfl, ?_⟩
  simp

/-- Claim C1, amended. A reply with no parseable JSON object yields exactly
the fixed default record (risk score 5.0, level MEDIUM, empty lists, one
manual-review recommendation). A reply whose extracted JSON parses to an
object missing all expected keys instead yields score 5.0, level MEDIUM and
every list field empty — including an empty recommendations list. -/
theorem c1_theorem (s : String) :
    (jsonLoads (extractJsonSlice s) = none →
      parseSecurityAnalysis s = createDefaultSecurityAnalysis) ∧
    (∀ kvs, jsonLoads (extractJsonSlice s) = some (Json.obj kvs) →
      expectedKeys.all (fun k => (kvs.find? (fun kv => kv.fst == k)).isNone) = true →
      parseSecurityAnalysis s =
        { risk_score := 5, risk_level := Json.str "MEDIUM",
          vulnerabilities := Json.arr [], compliance_issues := Json.arr [],
          recommendations := Json.arr [], unsafe_formats := Json.arr [],
          suspicious_files := Json.arr [], license_issues := Json.arr [] }) := by
  constructor
  · intro h
    simp only [parseSecurityAnalysis, h]
  · intro kvs h hall
    simp only [expectedKeys, List.all_cons, List.all_nil, Bool.and_true,
      Bool.and_eq_true, Option.isNone_iff_eq_none] at hall
    obtain ⟨h1, h2, h3, h4, h5, h6, h7, h8⟩ := hall
    rw [parseSecurityAnalysis, h]
    dsimp only
    rw [objGet_eq_default _ _ _ h1, objGet_eq_default _ _ _ h2,
      objGet_eq_default _ _ _ h3, objGet_eq_default _ _ _ h4,
      objGet_eq_default _ _ _ h5, objGet_eq_default _ _ _ h6,
      objGet_eq_default _ _ _ h7, objGet_eq_default _ _ _ h8]
    dsimp only [pyFloat]

/-- Claim C1, witness: a reply with no JSON at all, and a reply whose JSON
object has only an unexpected key. -/
theorem c1_witness :
    parseSecurityAnalysis "the service returned prose" = createDefaultSecurityAnalysis ∧
    parseSecurityAnalysis "\x7b\"foo\": true\x7d" =
      { risk_score := 5, risk_level := Json.str "MEDIUM",
        vulnerabilities := Json.arr [], compliance_issues := Json.arr [],
        recommendations := Json.arr [], unsafe_formats := Json.arr [],
        suspicious_files := Json.arr [], license_issues := Json.arr [] } :=
  ⟨( c1_theorem "the service returned prose").1 rfl,
   ( c1_theorem "\x7b\"foo\": true\x7d").2 [("foo", Json.bool true)] rfl rfl⟩

/- ### Claim C3: the [0,10]/enum invariant is not enforced by the parse -/

/-- Claim C3: the parse performs no validation, so the reply
`{"risk_score": 99, "risk_level": "INVALID"}` produces a SecurityAnalysis
whose score is 99 (outside [0,10]) and whose level is none of the four
enumerated values — contradicting the documented data-model invariant. -/
theorem c3_theorem :
    (parseSecurityAnalysis c3FailingReply).risk_score = 99 ∧
    ¬((parseSecurityAnalysis c3FailingReply).risk_score ≤ 10) ∧
    (parseSecurityAnalysis c3FailingReply).risk_level = Json.str "INVALID" ∧
    Json.str "INVALID" ≠ Json.str "LOW" ∧
    Json.str "INVALID" ≠ Json.str "MEDIUM" ∧
    Json.str "INVALID" ≠ Json.str "HIGH" ∧
    Json.str "INVALID" ≠ Json.str "CRITICAL" := by
  refine ⟨by with_unfolding_all rfl, by with_unfolding_all decide, rfl,
    by simp, by simp, by simp, by simp⟩

/- ### Claim C4: an empty file list yields an AIBOM with no components -/

/-- Claim C4, counterexample. The claim states that an empty file list
still yields at least one component; the normal generation path puts the
subject only into the metadata block and returns an empty components list. -/
theorem c4_counterexample :
    emptyFilesModel.files = [] ∧
    (simulateOwaspGenerator (fun _ => "0123456789abcdef") "serial" emptyFilesModel).components
      = [] :=
  ⟨rfl, rfl⟩

/-- Claim C4, amended. For metadata with an empty file list the generator
returns an AIBOM whose components list is empty; the subject component
appears only in the metadata block. A single-component AIBOM arises only
from the failure fallback `_create_basic_aibom`. -/
theorem c4_theorem (uuids : Nat → String) (serial serial2 : String) (m : ModelInfo)
    (h : m.files = []) :
    (simulateOwaspGenerator uuids serial m).components = [] ∧
    (simulateOwaspGenerator uuids serial m).metadata.component.name = m.name ∧
    (createBasicAibom serial2 m).components.length = 1 := by
  refine ⟨?_, rfl, rfl⟩
  simp [simulateOwaspGenerator, fileComponents, h]

/-- Claim C4, witness. -/
theorem c4_witness :
    (simulateOwaspGenerator (fun _ => "u") "s1" emptyFilesModel).components = [] ∧
    (simulateOwaspGenerator (fun _ => "u") "s1" emptyFilesModel).metadata.component.name
      = emptyFilesModel.name ∧
    (createBasicAibom "s2" emptyFilesModel).components.length = 1 :=
  c4_theorem (fun _ => "u") "s1" "s2" emptyFilesModel rfl

/- ### Counting lemmas for the generator's vulnerability list -/

/-- Counting through a `filterMap` whose per-element yield is described by
`q`. -/
theorem countP_filterMap_eq {α β : Type} (g : α → Option β) (p : β → Bool) (q : α → Bool)
    (h : ∀ x, optHit p (g x) = q x) :
    ∀ l : List α, (l.filterMap g).countP p = l.countP q := by
  intro l
  induction l with
  | nil => rfl
  | cons a t ih =>
    have ha := h a
    rw [List.filterMap_cons]
    cases hg : g a with
    | none =>
      rw [hg] at ha
      have hqa : q a = false := by rw [← ha]; rfl
      rw [List.countP_cons, hqa, ih]
      simp
    | some v =>
      rw [hg] at ha
      have hqa : q a = p v := by rw [← ha]; rfl
      rw [List.countP_cons, List.countP_cons, hqa, ih]

/-- Assigning ids does not change any count that ignores the id. -/
theorem countP_assignIds (uuids : Nat → String) (p : Vulnerability → Bool)
    (hp : ∀ (v : Vulnerability) (s : String), p { v with id := s } = p v) :
    ∀ vs : List Vulnerability, (assignIds uuids vs).countP p = vs.countP p := by
  have key : ∀ (n : Nat) (l : List Vulnerability),
      (List.enumFrom n l).countP
        (fun pr => p { pr.snd with id := "AIBOM-" ++ (uuids pr.fst).take 8 }) = l.countP p := by
    intro n l
    induction l generalizing n with
    | nil => rfl
    | cons a t ih =>
      rw [show List.enumFrom n (a :: t) = (n, a) :: List.enumFrom (n + 1) t from rfl,
        List.countP_cons, ih (n + 1), List.countP_cons]
      simp [hp]
  intro vs
  rw [assignIds, List.countP_map]
  exact key 0 vs

/-- A name ending in `.py` ends in none of the other dispatched suffixes. -/
theorem py_suffix_exclusive (s : String) (h : pyEndsWith s ".py" = true) :
    pyEndsWith s ".bin" = false ∧ pyEndsWith s ".safetensors" = false ∧
    pyEndsWith s ".json" = false := by
  have h' : leadMatch ['y', 'p', '.'] s.data.reverse = true := h
  have conflict : ∀ (b : Char) (u : List Char), (b == 'y') = false →
      leadMatch (b :: u) s.data.reverse = false := by
    intro b u hb
    cases hrev : s.data.reverse with
    | nil => rw [hrev] at h'; exact absurd h' (by simp [leadMatch])
    | cons c cs =>
      rw [hrev] at h'
      simp only [leadMatch, Bool.and_eq_true] at h'
      have hc : c = 'y' := (beq_iff_eq.mp h'.1).symm
      subst hc
      simp only [leadMatch, hb, Bool.false_and]
  exact ⟨conflict 'n' _ (by decide), conflict 's' _ (by decide), conflict 'n' _ (by decide)⟩

/-- The per-file pickle-vulnerability yield, matched against `pHigh n`, is
exactly "this file is named `n` and triggers the pickle rule". -/
theorem pickle_yield_eq (n : String) (f : FileInfo) :
    optHit (pHigh n) (pickleYield f) = (f.name == n && isPickleSourceFile f.name) := by
  rw [pickleYield]
  by_cases hpy : pyEndsWith f.name ".py" = true
  · obtain ⟨hb, hs, hj⟩ := py_suffix_exclusive f.name hpy
    rw [hb, hs, hj, hpy]
    by_cases hpk : strContainsSub (pyLower f.name) "pickle" = true
    · rw [hpk]
      show pHigh n (mkPickleVuln f.name) = (f.name == n && isPickleSourceFile f.name)
      have hip : isPickleSourceFile f.name = true := by
        rw [isPickleSourceFile, hpy, hpk]
        rfl
      rw [hip, Bool.and_true, pHigh]
      rw [show ((mkPickleVuln f.name).severity == "high") = true from rfl, Bool.true_and]
      show [f.name].contains n = (f.name == n)
      exact contains_singleton f.name n
    · rw [Bool.not_eq_true] at hpk
      rw [hpk]
      have hip : isPickleSourceFile f.name = false := by
        rw [isPickleSourceFile, hpy, hpk]
        rfl
      rw [hip, Bool.and_false]
      rfl
  · rw [Bool.not_eq_true] at hpy
    have hik : isPickleSourceFile f.name = false := by
      rw [isPickleSourceFile, hpy, Bool.false_and]
    rw [hik, Bool.and_false, hpy]
    by_cases hb : (pyEndsWith f.name ".bin" || pyEndsWith f.name ".safetensors") = true
    · rw [hb]; rfl
    · rw [Bool.not_eq_true] at hb
      rw [hb]
      by_cases hj : pyEndsWith f.name ".json" = true
      · rw [hj]; rfl
      · rw [Bool.not_eq_true] at hj
        rw [hj]; rfl

/-- The per-file yield, matched against the medium-license predicate, is
always false (pickle findings are HIGH). -/
theorem pickle_yield_not_medium (f : FileInfo) :
    optHit pMedium (pickleYield f) = (fun _ : FileInfo => false) f := by
  rw [pickleYield]
  by_cases h1 : (pyEndsWith f.name ".bin" || pyEndsWith f.name ".safetensors") = true
  · rw [h1]; rfl
  · rw [Bool.not_eq_true] at h1
    rw [h1]
    by_cases h2 : pyEndsWith f.name ".json" = true
    · rw [h2]; rfl
    · rw [Bool.not_eq_true] at h2
      rw [h2]
      by_cases h3 : pyEndsWith f.name ".py" = true
      · rw [h3]
        by_cases h4 : strContainsSub (pyLower f.name) "pickle" = true
        · rw [h4]; rfl
        · rw [Bool.not_eq_true] at h4
          rw [h4]; rfl
      · rw [Bool.not_eq_true] at h3
        rw [h3]; rfl

/-- The license step contributes no HIGH entry. -/
theorem license_vulns_countP_high (n modelName : String) (lic : Option String) :
    (licenseVulnerability modelName lic).countP (pHigh n) = 0 := by
  rw [licenseVulnerability]
  split
  · rfl
  · rfl

/-- The license step contributes exactly one MEDIUM entry iff the license
is absent or the literal "unknown". -/
theorem license_vulns_countP_medium (modelName : String) (lic : Option String) :
    (licenseVulnerability modelName lic).countP pMedium =
      if lic = none ∨ lic = some "unknown" then 1 else 0 := by
  rw [licenseVulnerability]
  by_cases hc : lic = none ∨ lic = some "unknown"
  · rw [if_pos hc, if_pos (by simpa using hc)]
    rfl
  · rw [if_neg hc, if_neg (by simpa using hc)]
    rfl

/- ### Claim C5: one HIGH finding per qualifying pickle source file -/

/-- Claim C5, counterexample. The claim states the AIBOM contains exactly
one HIGH-severity entry referencing a qualifying file name; a metadata
record listing the same qualifying file twice (the builder deduplicates
nothing) produces two such entries. -/
theorem c5_counterexample :
    isPickleSourceFile "load_pickle.py" = true ∧
    (dupPickleModel.files.filter (fun f => f.name == "load_pickle.py")).length = 2 ∧
    highVulnCountFor
      (simulateOwaspGenerator (fun i => toString i) "serial" dupPickleModel)
      "load_pickle.py" = 2 ∧
    (2 : Nat) ≠ 1 :=
  ⟨rfl, rfl, rfl, by decide⟩

/-- Claim C5, amended. The number of HIGH-severity vulnerability entries
referencing a name `n` equals the number of file descriptors named `n`
that end in `.py` and contain "pickle" case-insensitively; in particular,
when file names are distinct this is exactly one for each qualifying file
and zero for every other name. -/
theorem c5_theorem (uuids : Nat → String) (serial : String) (m : ModelInfo) (n : String) :
    highVulnCountFor (simulateOwaspGenerator uuids serial m) n =
      (m.files.filter (fun f => f.name == n && isPickleSourceFile f.name)).length := by
  have hpk := countP_filterMap_eq pickleYield (pHigh n)
    (fun f => f.name == n && isPickleSourceFile f.name) (pickle_yield_eq n) m.files
  rw [highVulnCountFor, ← List.countP_eq_length_filter, ← List.countP_eq_length_filter]
  show (assignIds uuids
      (pickleVulnerabilities m.files ++ licenseVulnerability m.name m.license)).countP
      (pHigh n) = _
  rw [countP_assignIds uuids (pHigh n) (fun _ _ => rfl), List.countP_append,
    license_vulns_countP_high, Nat.add_zero, pickleVulnerabilities, hpk]

/- ### Claim C6: the MEDIUM license finding iff license absent/unknown -/

/-- Claim C6: the AIBOM contains exactly one MEDIUM-severity
license-analysis vulnerability iff the metadata license is `None` or the
literal "unknown", and none otherwise. -/
theorem c6_theorem (uuids : Nat → String) (serial : String) (m : ModelInfo) :
    licenseVulnCount (simulateOwaspGenerator uuids serial m) =
      if m.license = none ∨ m.license = some "unknown" then 1 else 0 := by
  have hpk := countP_filterMap_eq pickleYield pMedium (fun _ => false)
    pickle_yield_not_medium m.files
  rw [licenseVulnCount, ← List.countP_eq_length_filter]
  show (assignIds uuids
      (pickleVulnerabilities m.files ++ licenseVulnerability m.name m.license)).countP
      pMedium = _
  rw [countP_assignIds uuids pMedium (fun _ _ => rfl), List.countP_append,
    pickleVulnerabilities, hpk, license_vulns_countP_medium]
  simp

/- ### Dict lemmas for the comparison engine -/

/-- Inserting a fresh key appends at the end. -/
theorem dictInsert_of_not_mem {α : Type} (k : String) (v : α) :
    ∀ l : List (String × α), k ∉ l.map Prod.fst → dictInsert k v l = l ++ [(k, v)] := by
  intro l
  induction l with
  | nil => intro _; rfl
  | cons kv rest ih =>
    intro h
    rw [List.map_cons, List.mem_cons] at h
    push_neg at h
    rw [dictInsert]
    rw [if_neg (fun hcontra => h.1 ((beq_iff_eq.mp hcontra).symm))]
    rw [ih h.2, List.cons_append]

/-- Folding fresh distinct keys into a dict appends them in order. -/
theorem foldl_dictInsert_eq_append {α β : Type} (key : β → String) (val : β → α) :
    ∀ (xs : List β) (l : List (String × α)), (xs.map key).Nodup →
      (∀ x ∈ xs, key x ∉ l.map Prod.fst) →
      xs.foldl (fun acc x => dictInsert (key x) (val x) acc) l =
        l ++ xs.map (fun x => (key x, val x)) := by
  intro xs
  induction xs with
  | nil => intro l _ _; simp
  | cons x t ih =>
    intro l hnd hfresh
    rw [List.map_cons, List.nodup_cons] at hnd
    rw [List.foldl_cons, dictInsert_of_not_mem _ _ l (hfresh x (by simp))]
    rw [ih (l ++ [(key x, val x)]) hnd.2]
    · simp
    · intro y hy
      rw [List.map_append, List.mem_append]
      push_neg
      refine ⟨hfresh y (by simp [hy]), ?_⟩
      simp only [List.map_cons, List.map_nil, List.mem_singleton]
      intro hcontra
      exact hnd.1 (hcontra ▸ List.mem_map_of_mem key hy)

/-- A member of `dictInsert k v l` has its key among `l`'s keys or equal
to `k`. -/
theorem dictInsert_fst_mem {α : Type} (k : String) (v : α) :
    ∀ (l : List (String × α)) (p : String × α),
      p ∈ dictInsert k v l → p.fst ∈ l.map Prod.fst ∨ p.fst = k := by
  intro l
  induction l with
  | nil =>
    intro p hp
    rw [dictInsert, List.mem_singleton] at hp
    right
    rw [hp]
  | cons kv rest ih =>
    intro p hp
    rw [dictInsert] at hp
    by_cases hk : (kv.fst == k) = true
    · rw [if_pos hk, List.mem_cons] at hp
      rcases hp with hp | hp
      · right; rw [hp]
      · left
        rw [List.map_cons, List.mem_cons]
        right
        exact List.mem_map_of_mem Prod.fst hp
    · rw [if_neg hk, List.mem_cons] at hp
      rcases hp with hp | hp
      · left; rw [hp]; simp
      · rcases ih p hp with h | h
        · left
          rw [List.map_cons, List.mem_cons]
          right
          exact h
        · right; exact h

/-- A member of a dict built by folding has its key among the folded keys
or the seed's keys. -/
theorem foldl_dictInsert_fst_mem {α β : Type} (key : β → String) (val : β → α) :
    ∀ (xs : List β) (l : List (String × α)) (p : String × α),
      p ∈ xs.foldl (fun acc x => dictInsert (key x) (val x) acc) l →
      p.fst ∈ l.map Prod.fst ∨ p.fst ∈ xs.map key := by
  intro xs
  induction xs with
  | nil => intro l p hp; left; exact List.mem_map_of_mem Prod.fst hp
  | cons x t ih =>
    intro l p hp
    rw [List.foldl_cons] at hp
    rcases ih (dictInsert (key x) (val x) l) p hp with h | h
    · rcases List.mem_map.mp h with ⟨q, hq, hqe⟩
      rcases dictInsert_fst_mem (key x) (val x) l q hq with h2 | h2
      · left; rw [← hqe]; exact h2
      · right
        rw [List.map_cons, List.mem_cons]
        left
        rw [← hqe, h2]
    · right
      rw [List.map_cons, List.mem_cons]
      right
      exact h

/-- `all` over a mapped list tests the composite predicate. -/
theorem all_map_eq {α β : Type} (f : α → β) (p : β → Bool) :
    ∀ l : List α, (l.map f).all p = l.all (fun a => p (f a)) := by
  intro l
  induction l with
  | nil => rfl
  | cons a t ih => simp [ih]

/-- A `filterMap` whose body is if-some-else-none is filter-then-map. -/
theorem filterMap_if_eq {α β : Type} (g : α → Option β) (p : α → Bool) (h : α → β)
    (hg : ∀ c, g c = if p c then some (h c) else none) :
    ∀ l : List α, l.filterMap g = (l.filter p).map h := by
  intro l
  induction l with
  | nil => rfl
  | cons a t ih =>
    rw [List.filterMap_cons, hg a, List.filter_cons]
    cases hp : p a
    · simp [ih]
    · simp [ih]

/-- With pairwise-distinct model names, the extracted dict is the result
list itself. -/
theorem extractAllComponents_eq_map (results : List AnalysisResult)
    (hnd : (results.map (fun r => r.model_name)).Nodup) :
    extractAllComponents results =
      results.map (fun r => (r.model_name, r.aibom.components)) := by
  have h := foldl_dictInsert_eq_append (fun r : AnalysisResult => r.model_name)
    (fun r : AnalysisResult => r.aibom.components) results [] hnd (by intro x _; simp)
  rw [List.nil_append] at h
  exact h

/-- With distinct component names, the first-model dict comprehension is
the component list itself, keyed by name. -/
theorem comp_dict_eq_map (comps : List Component)
    (hnd : (comps.map (fun c => c.name)).Nodup) :
    comps.foldl (fun d c => dictInsert c.name c d) [] =
      comps.map (fun c => (c.name, c)) := by
  have h := foldl_dictInsert_eq_append (fun c : Component => c.name)
    (fun c : Component => c) comps [] hnd (by intro x _; simp)
  rw [List.nil_append] at h
  exact h

/-- A `contains` test that is false is non-membership. -/
theorem contains_eq_false_iff (l : List String) (s : String) :
    l.contains s = false ↔ s ∉ l := by
  constructor
  · intro h hmem
    have ht : l.contains s = true := List.elem_iff.mpr hmem
    rw [h] at ht
    exact Bool.noConfusion ht
  · intro h
    cases hc : l.contains s
    · rfl
    · exact absurd (List.elem_iff.mp hc) h

/-- A component-name set contains `s` iff some component is named `s`. -/
theorem contains_componentNames (comps : List Component) (s : String) :
    (componentNames comps).contains s = true ↔ ∃ c ∈ comps, c.name = s := by
  rw [componentNames]
  constructor
  · intro h
    rcases List.mem_map.mp (List.elem_iff.mp h) with ⟨c, hc, hce⟩
    exact ⟨c, hc, hce⟩
  · intro ⟨c, hc, hce⟩
    exact List.elem_iff.mpr (List.mem_map.mpr ⟨c, hc, hce⟩)

/- ### Claim C2: behavior of compare on an empty input -/

/-- Claim C2, counterexample. The claim states that comparing an empty
list produces a fatal `ComparisonError`; in fact no such error type exists
and the engine returns a normal comparison with empty blocks. -/
theorem c2_counterexample :
    compareModels [] = some
      { common_components := []
        unique_components := []
        security_comparison :=
          { risk_scores := [], risk_levels := [], vulnerability_counts := [],
            compliance_issue_counts := [], highest_risk_model := "",
            lowest_risk_model := "", common_vulnerabilities := [],
            unique_vulnerabilities := [] }
        license_comparison :=
          { licenses_by_model := [], common_licenses := [], license_conflicts := [],
            unlicensed_models := [] }
        size_comparison :=
          { sizes_by_model := [], largest_model := "", smallest_model := "",
            average_size := 0, size_distribution := [] }
        dependency_analysis :=
          { dependencies_by_model := [], common_dependencies := [],
            unique_dependencies := [], dependency_conflicts := [] } } := rfl

/-- The security loop succeeds whenever every result's vulnerability and
compliance fields are actual JSON arrays (as the dataclass intends). -/
theorem foldlM_addSecurityRow_isSome :
    ∀ (results : List AnalysisResult) (acc : SecurityRows),
      (∀ r ∈ results, (∃ l, r.security_analysis.vulnerabilities = Json.arr l) ∧
        (∃ l, r.security_analysis.compliance_issues = Json.arr l)) →
      ∃ rows, results.foldlM addSecurityRow acc = some rows := by
  intro results
  induction results with
  | nil => intro acc _; exact ⟨acc, rfl⟩
  | cons r t ih =>
    intro acc h
    obtain ⟨⟨lv, hv⟩, lc, hc⟩ := h r (by simp)
    have hrow : ∃ acc2, addSecurityRow acc r = some acc2 := by
      rw [addSecurityRow, hv, hc]
      exact ⟨_, rfl⟩
    obtain ⟨acc2, hacc2⟩ := hrow
    obtain ⟨rows, hrows⟩ := ih acc2 (fun x hx => h x (by simp [hx]))
    refine ⟨rows, ?_⟩
    rw [List.foldlM_cons, hacc2]
    exact hrows

/-- Claim C2, amended. `compare_models` never signals an error on an empty
input (it returns a comparison with empty blocks — see the
counterexample), and it returns normally on every input whose security
fields are lists; no `ComparisonError` exists anywhere in the code. The
only exception the engine can propagate is a `TypeError` from `len()` when
a reply left a non-list in a SecurityAnalysis field. -/
theorem c2_theorem (results : List AnalysisResult)
    (h : ∀ r ∈ results, (∃ l, r.security_analysis.vulnerabilities = Json.arr l) ∧
      (∃ l, r.security_analysis.compliance_issues = Json.arr l)) :
    ∃ c, compareModels results = some c := by
  obtain ⟨rows, hrows⟩ := foldlM_addSecurityRow_isSome results ⟨[], [], [], []⟩ h
  rw [compareModels, compareSecurity, hrows]
  exact ⟨_, rfl⟩

/-- Claim C2, witness. -/
theorem c2_witness : ∃ c, compareModels [mkResult "solo" none none []] = some c :=
  c2_theorem _ (by
    intro r hr
    rw [List.mem_singleton] at hr
    subst hr
    exact ⟨⟨[], rfl⟩, ⟨[], rfl⟩⟩)

/- ### Claim C7: common/unique components, first-model bias -/

/-- Claim C7, counterexample. The claim states that a 1-element comparison
has empty `unique_components`; in fact, with a single model every
component is vacuously unique (there is no other model to contain it), so
the model's entry carries its full component list. -/
theorem c7_counterexample :
    (compareModels [mkResult "modelA" none none [mkComponent "comp-a" "d1"]]).map
        ModelComparison.unique_components
      = some [("modelA", [mkComponent "comp-a" "d1"])] ∧
    ([("modelA", [mkComponent "comp-a" "d1"])] : List (String × List Component))
      ≠ [("modelA", [])] := by
  refine ⟨rfl, ?_⟩
  simp

/-- Claim C7, amended. For a non-empty input with pairwise-distinct model
names and distinct component names in the first model, the common
components are exactly the first model's components whose name appears in
every other model's name set, each annotated with the full model-name
list (order and data taken from the first model; with duplicate names the
dict comprehension would instead keep one entry per distinct name, with
the last occurrence's data). For a 1-element input, the common components
are that model's full annotated component list, and its
`unique_components` entry is the model's full component list — not empty. -/
theorem c7_theorem :
    (∀ (r : AnalysisResult) (rest : List AnalysisResult),
      ((r :: rest).map (fun x => x.model_name)).Nodup →
      (r.aibom.components.map (fun c => c.name)).Nodup →
      findCommonComponents (extractAllComponents (r :: rest)) =
        (r.aibom.components.filter (fun c =>
            rest.all (fun x => (componentNames x.aibom.components).contains c.name))).map
          (fun c => (c, (r :: rest).map (fun x => x.model_name)))) ∧
    (∀ r : AnalysisResult,
      findUniqueComponents (extractAllComponents [r]) =
        [(r.model_name, r.aibom.components)]) := by
  constructor
  · intro r rest hnd hfc
    rw [extractAllComponents_eq_map _ hnd, List.map_cons]
    simp only [findCommonComponents]
    rw [comp_dict_eq_map _ hfc, List.filterMap_map]
    exact filterMap_if_eq _ _ _
      (by
        intro c
        simp only [Function.comp_apply]
        rw [all_map_eq, List.map_map]
        rfl)
      r.aibom.components
  · intro r
    show findUniqueComponents [(r.model_name, r.aibom.components)] = _
    simp [findUniqueComponents, bne_self_eq_false]

/-- Claim C7, witness: a 2-model instance with a shared component name,
and a 1-model instance. -/
theorem c7_witness :
    (findCommonComponents (extractAllComponents
        [mkResult "mA" none none [mkComponent "x" "d"],
         mkResult "mB" none none [mkComponent "x" "d2"]]) =
      ((mkResult "mA" none none [mkComponent "x" "d"]).aibom.components.filter (fun c =>
          [mkResult "mB" none none [mkComponent "x" "d2"]].all
            (fun x => (componentNames x.aibom.components).contains c.name))).map
        (fun c => (c,
          [mkResult "mA" none none [mkComponent "x" "d"],
           mkResult "mB" none none [mkComponent "x" "d2"]].map (fun x => x.model_name)))) ∧
    findUniqueComponents
        (extractAllComponents [mkResult "mA" none none [mkComponent "x" "d"]]) =
      [((mkResult "mA" none none [mkComponent "x" "d"]).model_name,
        (mkResult "mA" none none [mkComponent "x" "d"]).aibom.components)] :=
  ⟨c7_theorem.1 (mkResult "mA" none none [mkComponent "x" "d"])
      [mkResult "mB" none none [mkComponent "x" "d2"]] (by decide) (by decide),
   c7_theorem.2 (mkResult "mA" none none [mkComponent "x" "d"])⟩

/- ### Claim C8: disjoint pairs and uniqueness -/

/-- Claim C8, counterexample. The claim quantifies over every pair of
AnalysisResults with disjoint component-name sets; when the two results
carry the same model name, the engine's name-keyed dict collapses them
(the later overwrites the earlier), so `common_components` is the second
model's component list rather than `[]`. -/
theorem c8_counterexample :
    (componentNames [mkComponent "alpha" "d1"]).all
        (fun n => !((componentNames [mkComponent "beta" "d2"]).contains n)) = true ∧
    (compareModels [mkResult "modelX" none none [mkComponent "alpha" "d1"],
                    mkResult "modelX" none none [mkComponent "beta" "d2"]]).map
        ModelComparison.common_components
      = some [(mkComponent "beta" "d2", ["modelX"])] ∧
    ([(mkComponent "beta" "d2", ["modelX"])] : List (Component × List String)) ≠ [] := by
  refine ⟨rfl, rfl, ?_⟩
  simp

/-- Claim C8, amended. For two AnalysisResults with DISTINCT model names
and disjoint component-name sets, the engine yields empty
`common_components` and, for each model, a `unique_components` entry equal
to the model's own full component list (duplicates within one model
retained). -/
theorem c8_theorem (r1 r2 : AnalysisResult)
    (hname : (r1.model_name == r2.model_name) = false)
    (hdisj : r1.aibom.components.all
      (fun c1 => !((componentNames r2.aibom.components).contains c1.name)) = true) :
    findCommonComponents (extractAllComponents [r1, r2]) = [] ∧
    findUniqueComponents (extractAllComponents [r1, r2]) =
      [(r1.model_name, r1.aibom.components), (r2.model_name, r2.aibom.components)] := by
  have hex : extractAllComponents [r1, r2] =
      [(r1.model_name, r1.aibom.components), (r2.model_name, r2.aibom.components)] := by
    show dictInsert r2.model_name r2.aibom.components
        [(r1.model_name, r1.aibom.components)] = _
    rw [dictInsert, if_neg (by rw [hname]; exact Bool.false_ne_true)]
    rfl
  have hd12 : ∀ s, s ∈ r1.aibom.components.map (fun c => c.name) →
      (componentNames r2.aibom.components).contains s = false := by
    intro s hs
    rcases List.mem_map.mp hs with ⟨c1, hc1, hce⟩
    have hall := (List.all_eq_true.mp hdisj) c1 hc1
    rw [← hce]
    cases hcc : (componentNames r2.aibom.components).contains c1.name
    · rfl
    · rw [hcc] at hall
      exact absurd hall (by decide)
  have hsym : ∀ s, s ∈ r2.aibom.components.map (fun c => c.name) →
      (componentNames r1.aibom.components).contains s = false := by
    intro s hs
    cases hcc : (componentNames r1.aibom.components).contains s
    · rfl
    · exfalso
      rcases (contains_componentNames _ _).mp hcc with ⟨c1, hc1, hce⟩
      have h1 := hd12 s (hce ▸ List.mem_map_of_mem (fun c => c.name) hc1)
      have h2 := (contains_componentNames r2.aibom.components s).mpr (by
        rcases List.mem_map.mp hs with ⟨c2, hc2, hce2⟩
        exact ⟨c2, hc2, hce2⟩)
      rw [h1] at h2
      exact Bool.noConfusion h2
  constructor
  · rw [hex]
    simp only [findCommonComponents]
    rw [List.filterMap_eq_nil_iff]
    intro nc hnc
    have hk : nc.fst ∈ r1.aibom.components.map (fun c => c.name) := by
      rcases foldl_dictInsert_fst_mem (fun c : Component => c.name) (fun c : Component => c)
        r1.aibom.components [] nc hnc with h | h
      · exact absurd h (by simp)
      · exact h
    simp [(contains_eq_false_iff _ _).mp (hd12 nc.fst hk)]
  · rw [hex]
    simp only [findUniqueComponents, List.map_cons, List.map_nil]
    rw [List.filter_eq_self.mpr (by
      intro c hc
      have hcf := (contains_eq_false_iff _ _).mp
        (hd12 c.name (List.mem_map_of_mem (fun c => c.name) hc))
      simp [bne_self_eq_false, hcf])]
    rw [List.filter_eq_self.mpr (by
      intro c hc
      have hcf := (contains_eq_false_iff _ _).mp
        (hsym c.name (List.mem_map_of_mem (fun c => c.name) hc))
      simp [bne_self_eq_false, hcf])]

/-- Claim C8, witness: two models with disjoint component sets, one of
them holding an internal duplicate that is retained. -/
theorem c8_witness :
    findCommonComponents (extractAllComponents
      [mkResult "m1" none none [mkComponent "a" "d", mkComponent "a" "d2"],
       mkResult "m2" none none [mkComponent "b" "d"]]) = [] ∧
    findUniqueComponents (extractAllComponents
      [mkResult "m1" none none [mkComponent "a" "d", mkComponent "a" "d2"],
       mkResult "m2" none none [mkComponent "b" "d"]]) =
      [("m1", [mkComponent "a" "d", mkComponent "a" "d2"]),
       ("m2", [mkComponent "b" "d"])] :=
  c8_theorem (mkResult "m1" none none [mkComponent "a" "d", mkComponent "a" "d2"])
    (mkResult "m2" none none [mkComponent "b" "d"]) (by decide) (by decide)

/- ### Lemmas about the size-selection machinery -/

/-- `pyMaxBy` returns an element of the candidate list. -/
theorem pyMaxBy_mem {α κ : Type} [LinearOrder κ] (key : α → κ) :
    ∀ (l : List α) (b : α), pyMaxBy key b l ∈ b :: l := by
  intro l
  induction l with
  | nil => intro b; rw [pyMaxBy]; exact List.mem_singleton.mpr rfl
  | cons x xs ih =>
    intro b
    rw [pyMaxBy]
    by_cases hlt : key b < key x
    · rw [if_pos hlt]
      exact List.mem_cons_of_mem b (ih x)
    · rw [if_neg hlt]
      rcases List.mem_cons.mp (ih b) with h | h
      · rw [h]; exact List.mem_cons_self b _
      · exact List.mem_cons_of_mem b (List.mem_cons_of_mem x h)

/-- Every candidate's key is at most the `pyMaxBy` winner's key. -/
theorem pyMaxBy_key_ge {α κ : Type} [LinearOrder κ] (key : α → κ) :
    ∀ (l : List α) (b y : α), y ∈ b :: l → key y ≤ key (pyMaxBy key b l) := by
  intro l
  induction l with
  | nil =>
    intro b y hy
    rw [List.mem_singleton.mp hy, pyMaxBy]
  | cons x xs ih =>
    intro b y hy
    rw [pyMaxBy]
    by_cases hlt : key b < key x
    · rw [if_pos hlt]
      rcases List.mem_cons.mp hy with h | h
      · rw [h]
        exact le_trans (le_of_lt hlt) (ih x x (List.mem_cons_self x xs))
      · exact ih x y h
    · rw [if_neg hlt]
      rcases List.mem_cons.mp hy with h | h
      · exact h ▸ ih b b (List.mem_cons_self b xs)
      · rcases List.mem_cons.mp h with h2 | h2
        · rw [h2]
          exact le_trans (not_lt.mp hlt) (ih b b (List.mem_cons_self b xs))
        · exact ih b y (List.mem_cons_of_mem b h2)

/-- `pyMinBy` returns an element of the candidate list. -/
theorem pyMinBy_mem {α κ : Type} [LinearOrder κ] (key : α → κ) :
    ∀ (l : List α) (b : α), pyMinBy key b l ∈ b :: l := by
  intro l
  induction l with
  | nil => intro b; rw [pyMinBy]; exact List.mem_singleton.mpr rfl
  | cons x xs ih =>
    intro b
    rw [pyMinBy]
    by_cases hlt : key x < key b
    · rw [if_pos hlt]
      exact List.mem_cons_of_mem b (ih x)
    · rw [if_neg hlt]
      rcases List.mem_cons.mp (ih b) with h | h
      · rw [h]; exact List.mem_cons_self b _
      · exact List.mem_cons_of_mem b (List.mem_cons_of_mem x h)

/-- The `pyMinBy` winner's key is at most every candidate's key. -/
theorem pyMinBy_key_le {α κ : Type} [LinearOrder κ] (key : α → κ) :
    ∀ (l : List α) (b y : α), y ∈ b :: l → key (pyMinBy key b l) ≤ key y := by
  intro l
  induction l with
  | nil =>
    intro b y hy
    rw [List.mem_singleton.mp hy, pyMinBy]
  | cons x xs ih =>
    intro b y hy
    rw [pyMinBy]
    by_cases hlt : key x < key b
    · rw [if_pos hlt]
      rcases List.mem_cons.mp hy with h | h
      · rw [h]
        exact le_trans (ih x x (List.mem_cons_self x xs)) (le_of_lt hlt)
      · exact ih x y h
    · rw [if_neg hlt]
      rcases List.mem_cons.mp hy with h | h
      · exact h ▸ ih b b (List.mem_cons_self b xs)
      · rcases List.mem_cons.mp h with h2 | h2
        · rw [h2]
          exact le_trans (ih b b (List.mem_cons_self b xs)) (not_lt.mp hlt)
        · exact ih b y (List.mem_cons_of_mem b h2)

/-- With distinct keys, two dict entries with the same key are equal. -/
theorem nodup_fst_eq {α : Type} :
    ∀ (l : List (String × α)), (l.map Prod.fst).Nodup →
      ∀ (a : String) (b c : α), (a, b) ∈ l → (a, c) ∈ l → b = c := by
  intro l
  induction l with
  | nil => intro _ a b c hb _; exact absurd hb (List.not_mem_nil (a, b))
  | cons kv rest ih =>
    intro hnd a b c hb hc
    rw [List.map_cons, List.nodup_cons] at hnd
    rcases List.mem_cons.mp hb with h1 | h1 <;> rcases List.mem_cons.mp hc with h2 | h2
    · rw [← h1] at h2
      exact (Prod.mk.injEq _ _ _ _).mp h2.symm |>.2
    · exfalso
      apply hnd.1
      have : a = kv.fst := by rw [← h1]
      rw [← this]
      exact List.mem_map_of_mem Prod.fst h2
    · exfalso
      apply hnd.1
      have : a = kv.fst := by rw [← h2]
      rw [← this]
      exact List.mem_map_of_mem Prod.fst h1
    · exact ih hnd.2 a b c h1 h2

/-- With distinct model names, the sizes dict is the result list keyed by
name. -/
theorem sizes_dict_eq_map (results : List AnalysisResult)
    (hnd : (results.map (fun r => r.model_name)).Nodup) :
    results.foldl (fun acc r => dictInsert r.model_name r.model_info.model_size acc) [] =
      results.map (fun r => (r.model_name, r.model_info.model_size)) := by
  have h := foldl_dictInsert_eq_append (fun r : AnalysisResult => r.model_name)
    (fun r : AnalysisResult => r.model_info.model_size) results [] hnd (by intro x _; simp)
  rw [List.nil_append] at h
  exact h

/-- A falsy size keys to the bottom of the largest-selection. -/
theorem largestKey_falsy (s : Option Nat) (h : truthySize s = false) : largestKey s = 0 := by
  cases s with
  | none => rfl
  | some n =>
    rw [truthySize] at h
    rw [largestKey]
    cases hn : (n == 0)
    · rw [hn] at h
      exact absurd h (by decide)
    · rw [if_pos rfl]

/-- A falsy size keys to the top of the smallest-selection. -/
theorem smallestKey_falsy (s : Option Nat) (h : truthySize s = false) : smallestKey s = ⊤ := by
  cases s with
  | none => rfl
  | some n =>
    rw [truthySize] at h
    rw [smallestKey]
    cases hn : (n == 0)
    · rw [hn] at h
      exact absurd h (by decide)
    · rw [if_pos rfl]

/-- A truthy size keys to at least 1 in the largest-selection. -/
theorem largestKey_truthy (s : Option Nat) (h : truthySize s = true) : 1 ≤ largestKey s := by
  cases s with
  | none => exact absurd h (by decide)
  | some n =>
    rw [truthySize] at h
    rw [largestKey]
    cases hn : (n == 0)
    · rw [if_neg (by decide)]
      exact Nat.one_le_iff_ne_zero.mpr (by
        intro hz
        rw [hz] at hn
        exact absurd hn (by decide))
    · rw [hn] at h
      exact absurd h (by decide)

/-- A truthy size keys strictly below the top in the smallest-selection. -/
theorem smallestKey_truthy (s : Option Nat) (h : truthySize s = true) : smallestKey s < ⊤ := by
  cases s with
  | none => exact absurd h (by decide)
  | some n =>
    rw [truthySize] at h
    rw [smallestKey]
    cases hn : (n == 0)
    · rw [if_neg (by decide)]
      exact WithTop.coe_lt_top n
    · rw [hn] at h
      exact absurd h (by decide)

/-- An `any`-witnessed truthy size makes the valid-sizes list non-empty. -/
theorem sizeValues_ne_nil (results : List AnalysisResult)
    (hex : results.any (fun x => truthySize x.model_info.model_size) = true) :
    sizeValues results ≠ [] := by
  intro hnil
  rcases List.any_eq_true.mp hex with ⟨x, hx, htx⟩
  have := (List.filterMap_eq_nil_iff.mp hnil) x hx
  rw [htx] at this
  exact Option.noConfusion this

/-- A model whose size is falsy (absent or zero) is never selected as
largest or smallest, provided model names are distinct and some model has
a truthy size. -/
theorem falsy_not_extreme (results : List AnalysisResult)
    (hnd : (results.map (fun x => x.model_name)).Nodup)
    (r : AnalysisResult) (hr : r ∈ results)
    (hfalsy : truthySize r.model_info.model_size = false)
    (hex : results.any (fun x => truthySize x.model_info.model_size) = true) :
    (compareSizes results).largest_model ≠ r.model_name ∧
    (compareSizes results).smallest_model ≠ r.model_name := by
  have hne : results ≠ [] := by
    intro h
    rw [h] at hr
    exact absurd hr (List.not_mem_nil r)
  obtain ⟨r0, rest, hres⟩ := List.exists_cons_of_ne_nil hne
  subst hres
  obtain ⟨v, vs, hsv⟩ := List.exists_cons_of_ne_nil (sizeValues_ne_nil _ hex)
  have hsz : (r0 :: rest).foldl
      (fun acc x => dictInsert x.model_name x.model_info.model_size acc) [] =
      (r0.model_name, r0.model_info.model_size) ::
        rest.map (fun x => (x.model_name, x.model_info.model_size)) := by
    rw [sizes_dict_eq_map _ hnd, List.map_cons]
  have hlg : (compareSizes (r0 :: rest)).largest_model =
      (pyMaxBy (fun p : String × Option Nat => largestKey p.snd)
        (r0.model_name, r0.model_info.model_size)
        (rest.map (fun x => (x.model_name, x.model_info.model_size)))).fst := by
    simp only [compareSizes]
    rw [hsv]
    dsimp only
    rw [hsz]
  have hsm : (compareSizes (r0 :: rest)).smallest_model =
      (pyMinBy (fun p : String × Option Nat => smallestKey p.snd)
        (r0.model_name, r0.model_info.model_size)
        (rest.map (fun x => (x.model_name, x.model_info.model_size)))).fst := by
    simp only [compareSizes]
    rw [hsv]
    dsimp only
    rw [hsz]
  have hnd2 : (((r0 :: rest).map
      (fun x => (x.model_name, x.model_info.model_size))).map Prod.fst).Nodup := by
    rw [List.map_map]
    exact hnd
  have hmemr : (r.model_name, r.model_info.model_size) ∈
      (r0 :: rest).map (fun x => (x.model_name, x.model_info.model_size)) :=
    List.mem_map_of_mem _ hr
  rcases List.any_eq_true.mp hex with ⟨x, hx, htx⟩
  have hmemx : (x.model_name, x.model_info.model_size) ∈
      (r0 :: rest).map (fun x => (x.model_name, x.model_info.model_size)) :=
    List.mem_map_of_mem _ hx
  constructor
  · rw [hlg]
    intro heq
    have hwmem : pyMaxBy (fun p : String × Option Nat => largestKey p.snd)
        (r0.model_name, r0.model_info.model_size)
        (rest.map (fun x => (x.model_name, x.model_info.model_size))) ∈
        (r0 :: rest).map (fun x => (x.model_name, x.model_info.model_size)) :=
      pyMaxBy_mem _ _ _
    have hwpair : (r.model_name,
        (pyMaxBy (fun p : String × Option Nat => largestKey p.snd)
          (r0.model_name, r0.model_info.model_size)
          (rest.map (fun x => (x.model_name, x.model_info.model_size)))).snd) ∈
        (r0 :: rest).map (fun x => (x.model_name, x.model_info.model_size)) := by
      rw [← heq]
      exact hwmem
    have hsnd := nodup_fst_eq _ hnd2 r.model_name _ _ hwpair hmemr
    have hge := pyMaxBy_key_ge (fun p : String × Option Nat => largestKey p.snd)
      (rest.map (fun x => (x.model_name, x.model_info.model_size)))
      (r0.model_name, r0.model_info.model_size)
      (x.model_name, x.model_info.model_size)
      (by rw [List.map_cons] at hmemx; exact hmemx)
    dsimp only at hge
    rw [hsnd, largestKey_falsy _ hfalsy] at hge
    have h1 := largestKey_truthy _ htx
    exact absurd (le_trans h1 hge) (by decide)
  · rw [hsm]
    intro heq
    have hwmem : pyMinBy (fun p : String × Option Nat => smallestKey p.snd)
        (r0.model_name, r0.model_info.model_size)
        (rest.map (fun x => (x.model_name, x.model_info.model_size))) ∈
        (r0 :: rest).map (fun x => (x.model_name, x.model_info.model_size)) :=
      pyMinBy_mem _ _ _
    have hwpair : (r.model_name,
        (pyMinBy (fun p : String × Option Nat => smallestKey p.snd)
          (r0.model_name, r0.model_info.model_size)
          (rest.map (fun x => (x.model_name, x.model_info.model_size)))).snd) ∈
        (r0 :: rest).map (fun x => (x.model_name, x.model_info.model_size)) := by
      rw [← heq]
      exact hwmem
    have hsnd := nodup_fst_eq _ hnd2 r.model_name _ _ hwpair hmemr
    have hle := pyMinBy_key_le (fun p : String × Option Nat => smallestKey p.snd)
      (rest.map (fun x => (x.model_name, x.model_info.model_size)))
      (r0.model_name, r0.model_info.model_size)
      (x.model_name, x.model_info.model_size)
      (by rw [List.map_cons] at hmemx; exact hmemx)
    dsimp only at hle
    rw [hsnd, smallestKey_falsy _ hfalsy] at hle
    have h1 := smallestKey_truthy _ htx
    exact absurd (lt_of_le_of_lt hle h1) (lt_irrefl ⊤)

/- ### Claim C9: size comparison semantics -/

/-- Claim C9, counterexample. The claim says `average_size` is the mean
over the models with a known size; a model with the known size 0 is
nevertheless excluded (0 is falsy), so for sizes {A: 0, B: 100} the code
returns 100 while the claimed mean of the known sizes is 50. -/
theorem c9_counterexample :
    (mkResult "A" (some 0) none []).model_info.model_size = some 0 ∧
    (mkResult "B" (some 100) none []).model_info.model_size = some 100 ∧
    (compareSizes [mkResult "A" (some 0) none [],
      mkResult "B" (some 100) none []]).average_size = 100 ∧
    (100 : Rat) ≠ (0 + 100) / 2 := by
  refine ⟨rfl, rfl, by with_unfolding_all rfl, by norm_num⟩

/-- Claim C9, amended. `average_size` is the arithmetic mean over the
models with a truthy (present and nonzero) size, 0 when there is none;
for sizes {A: 100, B: None, C: 300} the average is 200, the largest model
is C and the smallest is A; and a model with an absent size never wins
largest or smallest, provided model names are distinct and some model has
a truthy size (when no size is truthy, both selections are the empty
string and name no model at all). -/
theorem c9_theorem :
    (∀ results : List AnalysisResult,
      (compareSizes results).average_size =
        if sizeValues results = [] then 0
        else (sizeValues results).sum / ((sizeValues results).length : Rat)) ∧
    ((compareSizes [mkResult "A" (some 100) none [], mkResult "B" none none [],
        mkResult "C" (some 300) none []]).average_size = 200 ∧
      (compareSizes [mkResult "A" (some 100) none [], mkResult "B" none none [],
        mkResult "C" (some 300) none []]).largest_model = "C" ∧
      (compareSizes [mkResult "A" (some 100) none [], mkResult "B" none none [],
        mkResult "C" (some 300) none []]).smallest_model = "A") ∧
    (∀ results : List AnalysisResult,
      (results.map (fun x => x.model_name)).Nodup →
      ∀ r ∈ results, r.model_info.model_size = none →
      results.any (fun x => truthySize x.model_info.model_size) = true →
      (compareSizes results).largest_model ≠ r.model_name ∧
      (compareSizes results).smallest_model ≠ r.model_name) := by
  refine ⟨?_, ⟨by with_unfolding_all rfl, by with_unfolding_all rfl,
    by with_unfolding_all rfl⟩, ?_⟩
  · intro results
    simp only [compareSizes]
    cases hsv : sizeValues results with
    | nil =>
      dsimp only
      rw [if_pos rfl]
    | cons v vs =>
      dsimp only
      rw [if_neg (by simp)]
  · intro results hnd r hr habs hex
    exact falsy_not_extreme results hnd r hr (by rw [habs]; rfl) hex

/-- Claim C9, witness. -/
theorem c9_witness :
    (compareSizes [mkResult "A" (some 100) none [], mkResult "B" none none [],
        mkResult "C" (some 300) none []]).largest_model ≠
      (mkResult "B" none none []).model_name ∧
    (compareSizes [mkResult "A" (some 100) none [], mkResult "B" none none [],
        mkResult "C" (some 300) none []]).smallest_model ≠
      (mkResult "B" none none []).model_name :=
  c9_theorem.2.2 _ (by decide) (mkResult "B" none none [])
    (List.Mem.tail _ (List.Mem.head _)) rfl rfl

/- ### Claim C10: a zero size behaves exactly like an absent size -/

/-- Two size entries agreeing on name and on both selection keys. -/
def szRel (a b : String × Option Nat) : Prop :=
  a.fst = b.fst ∧ largestKey a.snd = largestKey b.snd ∧ smallestKey a.snd = smallestKey b.snd

/-- `dictInsert` of key-equivalent values preserves `szRel`. -/
theorem dictInsert_szRel (k : String) (v₁ v₂ : Option Nat)
    (hL : largestKey v₁ = largestKey v₂) (hS : smallestKey v₁ = smallestKey v₂) :
    ∀ {l₁ l₂ : List (String × Option Nat)}, List.Forall₂ szRel l₁ l₂ →
      List.Forall₂ szRel (dictInsert k v₁ l₁) (dictInsert k v₂ l₂) := by
  intro l₁ l₂ h
  induction h with
  | nil => exact List.Forall₂.cons ⟨rfl, hL, hS⟩ List.Forall₂.nil
  | @cons a b t₁ t₂ hab htl ih =>
    rw [dictInsert, dictInsert]
    by_cases hk : (a.fst == k) = true
    · rw [if_pos hk, if_pos (by rw [← hab.1]; exact hk)]
      exact List.Forall₂.cons ⟨rfl, hL, hS⟩ htl
    · rw [if_neg hk, if_neg (by rw [← hab.1]; exact hk)]
      exact List.Forall₂.cons hab ih

/-- Replacing zero sizes by absent ones yields a key-equivalent sizes
dict. -/
theorem fold_sizes_szRel :
    ∀ (rs : List AnalysisResult) (acc₁ acc₂ : List (String × Option Nat)),
      List.Forall₂ szRel acc₁ acc₂ →
      List.Forall₂ szRel
        ((rs.map clearZeroSize).foldl
          (fun acc x => dictInsert x.model_name x.model_info.model_size acc) acc₁)
        (rs.foldl (fun acc x => dictInsert x.model_name x.model_info.model_size acc) acc₂) := by
  intro rs
  induction rs with
  | nil => intro _ _ h; exact h
  | cons r t ih =>
    intro acc₁ acc₂ h
    rw [List.map_cons, List.foldl_cons, List.foldl_cons]
    have hname : (clearZeroSize r).model_name = r.model_name := by
      rw [clearZeroSize]
      split <;> rfl
    have hL : largestKey (clearZeroSize r).model_info.model_size =
        largestKey r.model_info.model_size := by
      rw [clearZeroSize]
      split
      case isTrue h0 => rw [h0]; rfl
      case isFalse => rfl
    have hS : smallestKey (clearZeroSize r).model_info.model_size =
        smallestKey r.model_info.model_size := by
      rw [clearZeroSize]
      split
      case isTrue h0 => rw [h0]; rfl
      case isFalse => rfl
    rw [hname]
    exact ih _ _ (dictInsert_szRel r.model_name _ _ hL hS h)

/-- `pyMaxBy` over key-equivalent entry lists selects the same name. -/
theorem pyMaxBy_fst_szRel :
    ∀ {l₁ l₂ : List (String × Option Nat)}, List.Forall₂ szRel l₁ l₂ →
      ∀ {x₁ x₂ : String × Option Nat}, szRel x₁ x₂ →
      (pyMaxBy (fun p => largestKey p.snd) x₁ l₁).fst =
        (pyMaxBy (fun p => largestKey p.snd) x₂ l₂).fst := by
  intro l₁ l₂ h
  induction h with
  | nil => intro x₁ x₂ hx; exact hx.1
  | @cons a b t₁ t₂ hab htl ih =>
    intro x₁ x₂ hx
    rw [pyMaxBy, pyMaxBy]
    by_cases hlt : largestKey x₂.snd < largestKey b.snd
    · rw [if_pos (by rw [hx.2.1, hab.2.1]; exact hlt), if_pos hlt]
      exact ih hab
    · rw [if_neg (by rw [hx.2.1, hab.2.1]; exact hlt), if_neg hlt]
      exact ih hx

/-- `pyMinBy` over key-equivalent entry lists selects the same name. -/
theorem pyMinBy_fst_szRel :
    ∀ {l₁ l₂ : List (String × Option Nat)}, List.Forall₂ szRel l₁ l₂ →
      ∀ {x₁ x₂ : String × Option Nat}, szRel x₁ x₂ →
      (pyMinBy (fun p => smallestKey p.snd) x₁ l₁).fst =
        (pyMinBy (fun p => smallestKey p.snd) x₂ l₂).fst := by
  intro l₁ l₂ h
  induction h with
  | nil => intro x₁ x₂ hx; exact hx.1
  | @cons a b t₁ t₂ hab htl ih =>
    intro x₁ x₂ hx
    rw [pyMinBy, pyMinBy]
    by_cases hlt : smallestKey b.snd < smallestKey x₂.snd
    · rw [if_pos (by rw [hx.2.2, hab.2.2]; exact hlt), if_pos hlt]
      exact ih hab
    · rw [if_neg (by rw [hx.2.2, hab.2.2]; exact hlt), if_neg hlt]
      exact ih hx

/-- Pointwise-equal filterMap bodies give equal results. -/
theorem filterMap_congr_fun {α β : Type} (f g : α → Option β) (h : ∀ a, f a = g a) :
    ∀ l : List α, l.filterMap f = l.filterMap g := by
  intro l
  induction l with
  | nil => rfl
  | cons a t ih => rw [List.filterMap_cons, List.filterMap_cons, h a, ih]

/-- Zero sizes contribute to `valid_sizes` exactly like absent ones. -/
theorem sizeValues_clearZero (results : List AnalysisResult) :
    sizeValues (results.map clearZeroSize) = sizeValues results := by
  rw [sizeValues, sizeValues, List.filterMap_map]
  apply filterMap_congr_fun
  intro a
  dsimp only [Function.comp]
  rw [clearZeroSize]
  split
  case isTrue h0 => rw [h0]; rfl
  case isFalse => rfl

/-- Claim C10: a present-but-zero size estimate is treated exactly like an
absent one — replacing every zero size by `None` changes none of
`average_size`, `largest_model`, `smallest_model`; and a zero-size model
keys to the maximum extreme in the smallest-selection and never wins
either extreme (given distinct model names and some truthy size). -/
theorem c10_theorem :
    (∀ results : List AnalysisResult,
      (compareSizes (results.map clearZeroSize)).average_size =
        (compareSizes results).average_size ∧
      (compareSizes (results.map clearZeroSize)).largest_model =
        (compareSizes results).largest_model ∧
      (compareSizes (results.map clearZeroSize)).smallest_model =
        (compareSizes results).smallest_model) ∧
    (∀ results : List AnalysisResult,
      (results.map (fun x => x.model_name)).Nodup →
      ∀ r ∈ results, r.model_info.model_size = some 0 →
      results.any (fun x => truthySize x.model_info.model_size) = true →
      smallestKey r.model_info.model_size = ⊤ ∧
      (compareSizes results).largest_model ≠ r.model_name ∧
      (compareSizes results).smallest_model ≠ r.model_name) := by
  constructor
  · intro results
    have hrel := fold_sizes_szRel results [] [] List.Forall₂.nil
    simp only [compareSizes]
    rw [sizeValues_clearZero results]
    cases hsv : sizeValues results with
    | nil => exact ⟨rfl, rfl, rfl⟩
    | cons v vs =>
      dsimp only
      generalize hA : List.foldl
        (fun acc x => dictInsert x.model_name x.model_info.model_size acc) []
        (results.map clearZeroSize) = dA at hrel ⊢
      generalize hB : List.foldl
        (fun acc x => dictInsert x.model_name x.model_info.model_size acc) []
        results = dB at hrel ⊢
      cases hrel with
      | nil => exact ⟨rfl, rfl, rfl⟩
      | cons hab htl =>
        exact ⟨rfl, pyMaxBy_fst_szRel htl hab, pyMinBy_fst_szRel htl hab⟩
  · intro results hnd r hr h0 hex
    refine ⟨by rw [h0]; rfl, ?_⟩
    exact falsy_not_extreme results hnd r hr (by rw [h0]; rfl) hex

/-- Claim C10, witness. -/
theorem c10_witness :
    ((compareSizes ([mkResult "A" (some 0) none [],
        mkResult "B" (some 100) none []].map clearZeroSize)).average_size =
      (compareSizes [mkResult "A" (some 0) none [],
        mkResult "B" (some 100) none []]).average_size ∧
      (compareSizes ([mkResult "A" (some 0) none [],
        mkResult "B" (some 100) none []].map clearZeroSize)).largest_model =
      (compareSizes [mkResult "A" (some 0) none [],
        mkResult "B" (some 100) none []]).largest_model ∧
      (compareSizes ([mkResult "A" (some 0) none [],
        mkResult "B" (some 100) none []].map clearZeroSize)).smallest_model =
      (compareSizes [mkResult "A" (some 0) none [],
        mkResult "B" (some 100) none []]).smallest_model) ∧
    (smallestKey (mkResult "A" (some 0) none []).model_info.model_size = ⊤ ∧
      (compareSizes [mkResult "A" (some 0) none [],
        mkResult "B" (some 100) none []]).largest_model ≠
        (mkResult "A" (some 0) none []).model_name ∧
      (compareSizes [mkResult "A" (some 0) none [],
        mkResult "B" (some 100) none []]).smallest_model ≠
        (mkResult "A" (some 0) none []).model_name) :=
  ⟨c10_theorem.1 [mkResult "A" (some 0) none [], mkResult "B" (some 100) none []],
   c10_theorem.2 [mkResult "A" (some 0) none [], mkResult "B" (some 100) none []]
     (by decide) (mkResult "A" (some 0) none []) (List.Mem.head _) rfl rfl⟩

end Aibom
